import Mathlib

/-!
Verification development for `obs_repos.py`, an OBS (Open Build Service)
repository mirroring and query tool.  The Python entity model (`Relation`,
`Package`), the package-name filter, the relation-matching primitive
`Package.iter_relations`, the provides/requires membership filters, the
cache writer/reader (`pickle.dump` / `load_meta_cache`), the two-pass
file-attachment join, and the dependency-tree traversal
(`provides_packages`) are shallowly embedded below; Python strings are
modelled as Lean `String` and the Python `str` operators (`startswith`,
`endswith`, `in`, `==`) as executable functions over the character lists.
-/

namespace ObsRepos

/-- Python `pre` is a prefix of `s` (character-list level). -/
def charsStart : List Char → List Char → Bool
  | [], _ => true
  | _ :: _, [] => false
  | a :: as, b :: bs => a == b && charsStart as bs

/-- Python `s.startswith(pre)`. -/
def pyStartswith (s pre : String) : Bool :=
  charsStart pre.data s.data

/-- Python `s.endswith(suf)`. -/
def pyEndswith (s suf : String) : Bool :=
  charsStart suf.data.reverse s.data.reverse

/-- Python substring containment on character lists: `n` occurs inside `h`. -/
def charsContain (n h : List Char) : Bool :=
  charsStart n h ||
    match h with
    | [] => false
    | _ :: t => charsContain n t

/-- Python `needle in hay` for strings (substring containment). -/
def pyContains (needle hay : String) : Bool :=
  charsContain needle.data hay.data

/-- `Relation` from `obs_repos.py` (`__slots__ = ('name', 'flags', 'ver', 'rel')`).
`flags`, `ver`, `rel` are optional exactly as in the constructor calls of the
parser (`None` when absent). -/
structure Relation where
  name : String
  flags : Option String
  ver : Option String
  rel : Option String
deriving DecidableEq

/-- `Relation.provides(other)` for a `Relation` argument: true iff the names
are equal (the `isinstance(other, Relation)` branch of the source). -/
def Relation.provides (self other : Relation) : Bool :=
  self.name == other.name

/-- `Package` from `obs_repos.py`: the slot state
`('name', 'arch', 'version', 'rel', 'files', 'href', 'provides', 'requires',
'summary', 'description', 'size', 'size_installed', 'repo')`. -/
structure Package where
  name : String
  arch : String
  version : String
  rel : String
  files : Option (List String) := none
  href : Option String := none
  provides : Option (List Relation) := none
  requires : Option (List Relation) := none
  summary : Option String := none
  description : Option String := none
  size : Int := 0
  size_installed : Int := 0
  repo : Option String := none
deriving DecidableEq

/-- `Package.__eq__`: true iff `name`, `arch` and `version` all match
(`rel`, `repo` and every other slot are ignored). -/
def py_eq (p q : Package) : Bool :=
  p.name == q.name && p.arch == q.arch && p.version == q.version

/-- The tuple `(self.repo, self.name, self.arch, self.version)` that
`Package.__hash__` hashes.  The CPython hash itself is abstracted as an
injective function of this tuple (hash collisions between distinct tuples
are ignored, as is standard). -/
def py_hash_key (p : Package) : Option String × String × String × String :=
  (p.repo, p.name, p.arch, p.version)

/-- Membership key used by Python `set`/`dict` containers of `Package`:
a probe `p` finds a stored `q` iff their hashes agree and `p == q`.
With the hash abstracted as injective on `py_hash_key`, that is
`py_eq p q ∧ py_hash_key p = py_hash_key q`. -/
def pkgSetKeyEq (p q : Package) : Bool :=
  py_eq p q && decide (py_hash_key p = py_hash_key q)

/-- Python `p in s` for a set `s` of packages (modelled as the list of its
elements). -/
def setMember (p : Package) (s : List Package) : Bool :=
  s.any (fun y => pkgSetKeyEq p y)

/-- `Package.iter_relations(self, provides, reverse)`: for every relation the
consumer requires (`self` when forward, the `provides` argument when
`reverse`), yield the ways the other package satisfies it — `(require, none)`
for each file equal to a `/`-prefixed required name, `(require, provide)` for
each provided relation with the same name.  The generator is modelled as the
list of yielded pairs. -/
def Package.iter_relations (self : Package) (provides : Package) (reverse : Bool) :
    List (Relation × Option Relation) :=
  match reverse with
  | true =>
    (provides.requires.getD []).flatMap (fun require =>
      if pyStartswith require.name "/" then
        (self.files.getD []).filterMap (fun file_path =>
          if file_path == require.name then some (require, none) else none)
      else
        (self.provides.getD []).filterMap (fun provide =>
          if provide.provides require then some (require, some provide) else none))
  | false =>
    (self.requires.getD []).flatMap (fun require =>
      if pyStartswith require.name "/" then
        (provides.files.getD []).filterMap (fun file_path =>
          if file_path == require.name then some (require, none) else none)
      else
        (provides.provides.getD []).filterMap (fun provide =>
          if require.provides provide then some (require, some provide) else none))

lemma strBeq_comm (a b : String) : (a == b) = (b == a) := by
  by_cases h : a = b
  · subst h; rfl
  · rw [beq_eq_false_iff_ne.mpr h, beq_eq_false_iff_ne.mpr (Ne.symm h)]

/-- C2.  Direction symmetry of the matching primitive: the forward call
`p.iter_relations(q, reverse=False)` and the reverse call
`q.iter_relations(p, reverse=True)` yield literally the same sequence of
`(required relation, providing relation or none)` pairs (hence the same
set). -/
theorem iter_relations_direction_symmetry (p q : Package) :
    p.iter_relations q false = q.iter_relations p true := by
  simp only [Package.iter_relations]
  apply List.flatMap_congr
  intro require _
  by_cases h : pyStartswith require.name "/" = true
  · simp [h]
  · simp only [if_neg h]
    congr 1
    funext provide
    simp only [Relation.provides, strBeq_comm require.name provide.name]

/-- C6.  Virtual file relations: a required relation whose name begins with
`/` is satisfied in `iter_relations` exactly by verbatim membership of that
path in the candidate's `files`; it is never satisfied by a provided
relation, and a required relation whose name does not begin with `/` is
never satisfied by file membership. -/
theorem virtual_file_relation (p q : Package) (req prov : Relation) :
    (pyStartswith req.name "/" = true →
      (((req, (none : Option Relation)) ∈ p.iter_relations q false) ↔
        (req ∈ p.requires.getD [] ∧ req.name ∈ q.files.getD [])) ∧
      (req, some prov) ∉ p.iter_relations q false) ∧
    (pyStartswith req.name "/" = false →
      (req, (none : Option Relation)) ∉ p.iter_relations q false) := by
  refine ⟨fun h => ⟨⟨fun hmem => ?_, fun hmem => ?_⟩, fun hmem => ?_⟩, fun h hmem => ?_⟩
  · simp only [Package.iter_relations] at hmem
    rcases List.mem_flatMap.mp hmem with ⟨require, hreq, hin⟩
    by_cases hc : pyStartswith require.name "/" = true
    · rw [if_pos hc] at hin
      rcases List.mem_filterMap.mp hin with ⟨fp, hfp, heq⟩
      by_cases hfe : (fp == require.name) = true
      · rw [if_pos hfe] at heq
        have hrr : require = req := by simpa using heq
        subst hrr
        exact ⟨hreq, by rwa [eq_of_beq hfe] at hfp⟩
      · rw [if_neg hfe] at heq; cases heq
    · rw [if_neg hc] at hin
      rcases List.mem_filterMap.mp hin with ⟨provide, -, heq⟩
      by_cases hpe : require.provides provide = true
      · rw [if_pos hpe] at heq; simp at heq
      · rw [if_neg hpe] at heq; cases heq
  · rcases hmem with ⟨hreq, hfile⟩
    simp only [Package.iter_relations]
    refine List.mem_flatMap.mpr ⟨req, hreq, ?_⟩
    rw [if_pos h]
    exact List.mem_filterMap.mpr ⟨req.name, hfile, by simp⟩
  · simp only [Package.iter_relations] at hmem
    rcases List.mem_flatMap.mp hmem with ⟨require, hreq, hin⟩
    by_cases hc : pyStartswith require.name "/" = true
    · rw [if_pos hc] at hin
      rcases List.mem_filterMap.mp hin with ⟨fp, -, heq⟩
      by_cases hfe : (fp == require.name) = true
      · rw [if_pos hfe] at heq; simp at heq
      · rw [if_neg hfe] at heq; cases heq
    · rw [if_neg hc] at hin
      rcases List.mem_filterMap.mp hin with ⟨provide, -, heq⟩
      by_cases hpe : require.provides provide = true
      · rw [if_pos hpe] at heq
        have hrr : require = req := by simp at heq; exact heq.1
        subst hrr
        exact hc h
      · rw [if_neg hpe] at heq; cases heq
  · simp only [Package.iter_relations] at hmem
    rcases List.mem_flatMap.mp hmem with ⟨require, hreq, hin⟩
    by_cases hc : pyStartswith require.name "/" = true
    · rw [if_pos hc] at hin
      rcases List.mem_filterMap.mp hin with ⟨fp, -, heq⟩
      by_cases hfe : (fp == require.name) = true
      · rw [if_pos hfe] at heq
        have hrr : require = req := by simpa using heq
        subst hrr
        exact absurd hc (by simp [h])
      · rw [if_neg hfe] at heq; cases heq
    · rw [if_neg hc] at hin
      rcases List.mem_filterMap.mp hin with ⟨provide, -, heq⟩
      by_cases hpe : require.provides provide = true
      · rw [if_pos hpe] at heq; simp at heq
      · rw [if_neg hpe] at heq; cases heq

/-- Witness for C6: a package requiring `/usr/bin/foo` is satisfied by a
candidate that ships that file (even with a same-named provide present on
a third relation), and a plain `libx` requirement is never satisfied via
files; the hypotheses of `virtual_file_relation` are discharged at these
concrete packages. -/
theorem virtual_file_relation_witness :
    ((⟨"/usr/bin/foo", none, none, none⟩ : Relation), (none : Option Relation)) ∈
      (⟨"a", "noarch", "1", "1", none, none, none,
          some [⟨"/usr/bin/foo", none, none, none⟩], none, none, 0, 0, none⟩ : Package).iter_relations
        ⟨"b", "noarch", "1", "1", some ["/usr/bin/foo"], none,
          some [⟨"/usr/bin/foo", none, none, none⟩], none, none, none, 0, 0, none⟩ false ∧
    ((⟨"libx", none, none, none⟩ : Relation), (none : Option Relation)) ∉
      (⟨"c", "noarch", "1", "1", none, none, none,
          some [⟨"libx", none, none, none⟩], none, none, 0, 0, none⟩ : Package).iter_relations
        ⟨"b", "noarch", "1", "1", some ["libx"], none, none, none, none, none, 0, 0, none⟩ false :=
  ⟨((virtual_file_relation _ _ _ ⟨"x", none, none, none⟩).1 (by decide)).1.mpr
      ⟨by decide, by decide⟩,
    (virtual_file_relation _ _ _ ⟨"x", none, none, none⟩).2 (by decide)⟩

/-- C7.  `Package.__eq__` is exactly agreement of `(name, arch, version)`,
and the hash key `(repo, name, arch, version)` separates equal packages
that originate from different repositories, so they are distinct entities
in hash-based containers. -/
theorem package_eq_hash (p q : Package) :
    (py_eq p q = true ↔ (p.name = q.name ∧ p.arch = q.arch ∧ p.version = q.version)) ∧
    (py_eq p q = true → p.repo ≠ q.repo → py_hash_key p ≠ py_hash_key q) := by
  constructor
  · simp [py_eq, and_assoc]
  · intro _ hrepo hkey
    exact hrepo (congrArg Prod.fst hkey)

/-- Witness for C7: two packages with the same `(name, arch, version)` but
repositories `main` and `oss` compare equal under `__eq__` yet have
different hash keys. -/
theorem package_eq_hash_witness :
    py_eq ⟨"a", "x86_64", "1", "1", none, none, none, none, none, none, 0, 0, some "main"⟩
        ⟨"a", "x86_64", "1", "2", none, none, none, none, none, none, 0, 0, some "oss"⟩ = true ∧
    py_hash_key ⟨"a", "x86_64", "1", "1", none, none, none, none, none, none, 0, 0, some "main"⟩ ≠
      py_hash_key ⟨"a", "x86_64", "1", "2", none, none, none, none, none, none, 0, 0, some "oss"⟩ :=
  ⟨by decide,
    (package_eq_hash _ _).2 (by decide) (by decide)⟩

/-! ## Package name filter (`PackageNameFilter`) -/

/-- Python `s[1:]`. -/
def pyTail (s : String) : String :=
  ⟨s.data.tail⟩

/-- The parsed state of one `PackageNameFilter.Filter*` object.
`is_inverse` and `pattern` are the `FilterBase` fields (set from the
sub-pattern with a leading `!` stripped); `parts` additionally carries
`name_start`, `name_mid`, `name_end`, which `FilterParts.__init__`
precomputes from the raw sub-pattern **without** stripping `!`. -/
inductive PFilter where
  | exact (is_inverse : Bool) (pattern : String)
  | parts (is_inverse : Bool) (pattern name_start name_mid name_end : String)
  | text (is_inverse : Bool) (pattern : String)
  | startsW (is_inverse : Bool) (pattern : String)
  | endsW (is_inverse : Bool) (pattern : String)
deriving DecidableEq

/-- `FilterBase.__init__`: strip a leading `!` and record inversion. -/
def FilterBase_init (pattern : String) : Bool × String :=
  if pyStartswith pattern "!" then (true, pyTail pattern) else (false, pattern)

/-- `FilterParts.__init__`: `name_start = pattern + '-'`,
`name_mid = '-' + pattern + '-'`, `name_end = '-' + pattern` are built from
the argument `pattern` (not from the `!`-stripped `self.pattern`). -/
def FilterParts_init (pattern : String) : PFilter :=
  let b := FilterBase_init pattern
  .parts b.1 b.2 (pattern ++ "-") ("-" ++ pattern ++ "-") ("-" ++ pattern)

def PFilter.is_inverse : PFilter → Bool
  | .exact i _ => i
  | .parts i _ _ _ _ => i
  | .text i _ => i
  | .startsW i _ => i
  | .endsW i _ => i

/-- `Filter*.is_match(name)` for each of the five filter classes. -/
def PFilter.is_match : PFilter → String → Bool
  | .exact _ p, name => name == p
  | .parts _ p ns nm ne, name =>
      pyStartswith name ns || pyEndswith name ne || pyContains nm name || name == p
  | .text _ p, name => pyContains p name
  | .startsW _ p, name => pyStartswith name p
  | .endsW _ p, name => pyEndswith name p

/-- The `match name_pattern_[0]` dispatch of `PackageNameFilter.__init__`
for one space-separated piece; `none` models the `IndexError` an empty
piece raises. -/
def parse_name_pattern (s : String) : Option PFilter :=
  match s.data with
  | [] => none
  | c :: _ =>
    if c = '=' then some (let b := FilterBase_init (pyTail s); .exact b.1 b.2)
    else if c = '~' then some (FilterParts_init (pyTail s))
    else if c = '^' then some (let b := FilterBase_init (pyTail s); .startsW b.1 b.2)
    else if c = '#' then some (let b := FilterBase_init (pyTail s); .endsW b.1 b.2)
    else some (let b := FilterBase_init s; .text b.1 b.2)

/-- `PackageNameFilter.__init__` applied to the result of
`pattern.split(' ')`. -/
def PackageNameFilter_init (patterns : List String) : Option (List PFilter) :=
  patterns.mapM parse_name_pattern

/-- `PackageNameFilter.is_match`: scan the filters in order; an inverse
filter that matches returns `False` at once, a non-inverse filter that
matches returns `True` at once; if the scan falls through, return
`is_all_inverse` (computed over the whole filter list). -/
def PackageNameFilter_is_match (filters : List PFilter) (name : String) : Bool :=
  go filters
where
  go : List PFilter → Bool
    | [] => filters.all PFilter.is_inverse
    | f :: rest =>
      if f.is_inverse then
        (if f.is_match name then false else go rest)
      else
        (if f.is_match name then true else go rest)

/-- Modelled from the spec's words for C1 (the text-filter rule of §4.1),
for comparison with the source model above: the sigil is stripped first,
the `!` negation is stripped after it, and a `~` pattern matches the bare
body as a whole hyphen-separated component, prefix/suffix component, or
the whole string. -/
inductive SpecKind where
  | exact
  | hyphenPart
  | plainSub
  | startsW
  | endsW
deriving DecidableEq

structure SpecPattern where
  negated : Bool
  kind : SpecKind
  body : String
deriving DecidableEq

/-- Modelled from the spec: parse one pattern of the claimed rule
(sigil first, then the optional `!`). -/
def spec_parse (s : String) : Option SpecPattern :=
  match s.data with
  | [] => none
  | c :: _ =>
    let mk := fun (k : SpecKind) (sub : String) =>
      if pyStartswith sub "!" then some (⟨true, k, pyTail sub⟩ : SpecPattern)
      else some (⟨false, k, sub⟩ : SpecPattern)
    if c = '=' then mk .exact (pyTail s)
    else if c = '~' then mk .hyphenPart (pyTail s)
    else if c = '^' then mk .startsW (pyTail s)
    else if c = '#' then mk .endsW (pyTail s)
    else mk .plainSub s

/-- Modelled from the spec: what one claimed pattern matches. -/
def spec_pattern_matches (pat : SpecPattern) (name : String) : Bool :=
  match pat.kind with
  | .exact => name == pat.body
  | .hyphenPart =>
      name == pat.body || pyStartswith name (pat.body ++ "-") ||
        pyEndswith name ("-" ++ pat.body) || pyContains ("-" ++ pat.body ++ "-") name
  | .plainSub => pyContains pat.body name
  | .startsW => pyStartswith name pat.body
  | .endsW => pyEndswith name pat.body

/-- Modelled from the spec: the claimed three-way evaluation rule. -/
def spec_eval (pats : List SpecPattern) (name : String) : Bool :=
  go pats
where
  go : List SpecPattern → Bool
    | [] => pats.all (fun p => p.negated)
    | p :: rest =>
      if p.negated then
        (if spec_pattern_matches p name then false else go rest)
      else
        (if spec_pattern_matches p name then true else go rest)

/-- Modelled from the spec: the full claimed name-filter semantics. -/
def spec_is_match (patterns : List String) (name : String) : Option Bool :=
  (patterns.mapM spec_parse).map (fun pats => spec_eval pats name)

/-- C1.  The code diverges from the claimed rule: for the pattern list
`["~!foo"]` and the name `"foo-bar"`, the source's filter answers `True`
(because `FilterParts` built its hyphen-part probes from the raw `"!foo"`,
the pattern never fires, and the all-inverse fallback accepts), while the
claimed rule answers `False` (the negated part pattern matches `"foo-bar"`
and vetoes). -/
theorem name_filter_parts_negation_divergence :
    (PackageNameFilter_init ["~!foo"]).map
        (fun fs => PackageNameFilter_is_match fs "foo-bar") = some true ∧
    spec_is_match ["~!foo"] "foo-bar" = some false := by
  exact ⟨by decide, by decide⟩

/-! ## Provides / requires membership filters -/

/-- `Package.is_provides(provides)`: a filter string starting with `/` is
checked verbatim against `files`; any other string is checked as a
substring of the provided relations' names. -/
def Package.is_provides (self : Package) (provides : List String) : Bool :=
  provides.any (fun provide_ =>
    if pyStartswith provide_ "/" then
      (self.files.getD []).any (fun file_path => file_path == provide_)
    else
      (self.provides.getD []).any (fun provide => pyContains provide_ provide.name))

/-- `Package.is_requires(requires)`: substring check against the required
relations' names. -/
def Package.is_requires (self : Package) (requires : List String) : Bool :=
  requires.any (fun require_ =>
    (self.requires.getD []).any (fun require => pyContains require_ require.name))

/-- Modelled from the spec's words for C8: selection iff at least one
provided relation's name contains one of the filter strings. -/
def spec_provides_select (self : Package) (provides : List String) : Bool :=
  provides.any (fun s => (self.provides.getD []).any (fun r => pyContains s r.name))

/-- Counterexample to C8 as stated: a package with no provides at all but
with the file `/bin/sh` is selected by the provides filter `["/bin/sh"]`,
although none of its provided relations' names contains the string. -/
theorem is_provides_counterexample :
    ¬ ((⟨"p", "noarch", "1", "1", some ["/bin/sh"], none, none, none, none, none, 0, 0,
          none⟩ : Package).is_provides ["/bin/sh"] = true ↔
        spec_provides_select
          ⟨"p", "noarch", "1", "1", some ["/bin/sh"], none, none, none, none, none, 0, 0, none⟩
          ["/bin/sh"] = true) := by
  decide

/-- C8 (amended).  For a non-empty filter list: a provides-filter string
beginning with `/` selects iff it appears verbatim among the package's
files, any other string selects iff some provided relation's name contains
it; the requires filter selects iff some required relation's name contains
one of the strings. -/
theorem provides_requires_membership (p : Package) (fs : List String) (h : fs ≠ []) :
    (p.is_provides fs = true ↔ ∃ s ∈ fs,
        ((pyStartswith s "/" = true ∧ s ∈ p.files.getD []) ∨
          (pyStartswith s "/" = false ∧ ∃ r ∈ p.provides.getD [], pyContains s r.name = true))) ∧
    (p.is_requires fs = true ↔
      ∃ s ∈ fs, ∃ r ∈ p.requires.getD [], pyContains s r.name = true) := by
  constructor
  · simp only [Package.is_provides, List.any_eq_true]
    constructor
    · rintro ⟨s, hs, hif⟩
      refine ⟨s, hs, ?_⟩
      by_cases hc : pyStartswith s "/" = true
      · rw [if_pos hc] at hif
        rcases List.any_eq_true.mp hif with ⟨f, hf, hfe⟩
        exact Or.inl ⟨hc, by rwa [eq_of_beq hfe] at hf⟩
      · rw [if_neg hc] at hif
        exact Or.inr ⟨by simpa using hc, List.any_eq_true.mp hif⟩
    · rintro ⟨s, hs, hor⟩
      refine ⟨s, hs, ?_⟩
      rcases hor with ⟨hc, hfile⟩ | ⟨hc, r, hr, hcon⟩
      · rw [if_pos hc]
        exact List.any_eq_true.mpr ⟨s, hfile, by simp⟩
      · rw [if_neg (by simp [hc])]
        exact List.any_eq_true.mpr ⟨r, hr, hcon⟩
  · simp only [Package.is_requires, List.any_eq_true]

/-- Witness for C8: the amended characterization applied to a package that
provides `libxml` and requires `libx2`, with the filter list `["libx"]`. -/
theorem provides_requires_membership_witness :
    (["libx"] : List String) ≠ [] ∧
    (((⟨"p", "noarch", "1", "1", none, none, some [⟨"libxml", none, none, none⟩],
          some [⟨"libx2", none, none, none⟩], none, none, 0, 0, none⟩ : Package).is_provides
            ["libx"] = true ↔ ∃ s ∈ (["libx"] : List String),
        ((pyStartswith s "/" = true ∧
            s ∈ (⟨"p", "noarch", "1", "1", none, none, some [⟨"libxml", none, none, none⟩],
              some [⟨"libx2", none, none, none⟩], none, none, 0, 0, none⟩ : Package).files.getD []) ∨
          (pyStartswith s "/" = false ∧
            ∃ r ∈ (⟨"p", "noarch", "1", "1", none, none, some [⟨"libxml", none, none, none⟩],
              some [⟨"libx2", none, none, none⟩], none, none, 0, 0,
              none⟩ : Package).provides.getD [], pyContains s r.name = true))) ∧
      ((⟨"p", "noarch", "1", "1", none, none, some [⟨"libxml", none, none, none⟩],
          some [⟨"libx2", none, none, none⟩], none, none, 0, 0, none⟩ : Package).is_requires
            ["libx"] = true ↔
        ∃ s ∈ (["libx"] : List String),
          ∃ r ∈ (⟨"p", "noarch", "1", "1", none, none, some [⟨"libxml", none, none, none⟩],
            some [⟨"libx2", none, none, none⟩], none, none, 0, 0,
            none⟩ : Package).requires.getD [], pyContains s r.name = true)) :=
  ⟨by decide, provides_requires_membership _ _ (by decide)⟩

/-! ## Metadata cache (`pickle.dump` writer and `load_meta_cache` reader)

The persisted artifact is the Python value passed to `pickle.dump`;
`pickle.load` reconstructs a structurally equal value, so serialization is
modelled as the identity on a `PyObj` tree of the Python shapes that can
occur in (or be validated by) the cache path. -/

/-- A decoded Python value as `load_meta_cache` can observe it. -/
inductive PyObj where
  | pyStr (s : String)
  | pyInt (n : Int)
  | pyTuple (xs : List PyObj)
  | pyDict (entries : List (PyObj × PyObj))
  | pyPkg (p : Package)
  | pyRel (r : Relation)

/-- Python `x == s` for a string literal `s` on the right: strings compare
by value, other builtins compare unequal, and `Package`/`Relation` values
raise `AttributeError` (their custom `__eq__` reads `other.name`), modelled
as `none`. -/
def py_eq_str (o : PyObj) (s : String) : Option Bool :=
  match o with
  | .pyStr a => some (a == s)
  | .pyPkg _ => none
  | .pyRel _ => none
  | _ => some false

/-- Python `xs != ys` for a tuple of string literals on the right: compare
elementwise until the first unequal pair (each comparison may raise), then
compare lengths. -/
def py_tuple_ne_strs : List PyObj → List String → Option Bool
  | [], [] => some false
  | [], _ :: _ => some true
  | _ :: _, [] => some true
  | x :: xs, y :: ys =>
    match py_eq_str x y with
    | none => none
    | some false => some true
    | some true => py_tuple_ne_strs xs ys

/-- `packages[0] != PACKAGE_CACHE_HEADER` where the header is the constant
`('PACKAGE_CACHE', '2025.5')`. -/
def py_header_ne (o : PyObj) : Option Bool :=
  match o with
  | .pyPkg _ => none
  | .pyRel _ => none
  | .pyTuple xs => py_tuple_ne_strs xs ["PACKAGE_CACHE", "2025.5"]
  | _ => some true

/-- Outcome of `load_meta_cache` on a decoded artifact: the returned
`packages[1:]` pair, the `show_help(); exit(-1)` validation failure (no
data is returned and the user is pointed at the `d --dummy` re-ingestion
command), or an uncaught exception. -/
inductive LoadResult where
  | ok (revisions : List (PyObj × PyObj)) (packages : List PyObj)
  | invalid
  | crash

/-- `load_meta_cache` after `pickle.load`: the artifact must be a 3-tuple,
its first element must equal the magic+version header, its second must be a
`dict` and its third a `tuple`; any deviation is `invalid` (the
`FileNotFoundError` branch concerns the filesystem and is outside this
model). -/
def load_meta_cache (artifact : PyObj) : LoadResult :=
  match artifact with
  | .pyTuple [h, r, p] =>
    match py_header_ne h with
    | none => .crash
    | some true => .invalid
    | some false =>
      match r, p with
      | .pyDict d, .pyTuple t => .ok d t
      | _, _ => .invalid
  | _ => .invalid

/-- The value `(PACKAGE_CACHE_HEADER, repos_versions, tuple(packages_cache))`
that `main`'s cache-update step passes to `pickle.dump`. -/
def write_cache (revisions : List (String × String)) (packages : List Package) : PyObj :=
  .pyTuple [.pyTuple [.pyStr "PACKAGE_CACHE", .pyStr "2025.5"],
    .pyDict (revisions.map (fun kv => (.pyStr kv.1, .pyStr kv.2))),
    .pyTuple (packages.map .pyPkg)]

/-- C3.  Cache round-trip: writing `(revisions, packages)` and reading it
back yields exactly the written revisions mapping and package tuple, for
any non-empty package collection (the witness includes empty `files`,
`provides` and `requires`). -/
theorem cache_round_trip (revisions : List (String × String)) (packages : List Package)
    (h : packages ≠ []) :
    load_meta_cache (write_cache revisions packages) =
      .ok (revisions.map (fun kv => (.pyStr kv.1, .pyStr kv.2))) (packages.map .pyPkg) := by
  rfl

/-- Witness for C3: a one-package collection whose package has empty
`files`, empty `provides` and empty `requires` round-trips. -/
theorem cache_round_trip_witness :
    ([(⟨"a", "noarch", "1", "1", some [], none, some [], some [], none, none, 0, 0,
        some "oss"⟩ : Package)] ≠ []) ∧
    load_meta_cache (write_cache [("oss", "rev7")]
        [⟨"a", "noarch", "1", "1", some [], none, some [], some [], none, none, 0, 0,
          some "oss"⟩]) =
      .ok [(.pyStr "oss", .pyStr "rev7")]
        [.pyPkg ⟨"a", "noarch", "1", "1", some [], none, some [], some [], none, none, 0, 0,
          some "oss"⟩] :=
  ⟨List.cons_ne_nil _ _, cache_round_trip _ _ (List.cons_ne_nil _ _)⟩

/-- The shape the claim C4 demands: exactly a 3-tuple of the expected
header, a dict mapping strings to strings, and a tuple of packages. -/
def spec_cache_shape (a : PyObj) : Bool :=
  match a with
  | .pyTuple [.pyTuple [.pyStr m, .pyStr v], .pyDict d, .pyTuple t] =>
    m == "PACKAGE_CACHE" && v == "2025.5" &&
      d.all (fun kv =>
        match kv with
        | (.pyStr _, .pyStr _) => true
        | _ => false) &&
      t.all (fun o =>
        match o with
        | .pyPkg _ => true
        | _ => false)
  | _ => false

/-- The shape `load_meta_cache` actually validates: a 3-tuple whose first
element equals the header and whose second/third pass the `isinstance`
checks — the element types inside the dict and the tuple are not
inspected. -/
def code_cache_shape (a : PyObj) : Bool :=
  match a with
  | .pyTuple [h, .pyDict _, .pyTuple _] => py_header_ne h == some false
  | _ => false

/-- The artifacts on which the header comparison raises instead of
failing validation (first slot of a 3-tuple holding a `Package` or
`Relation`). -/
def load_crashes (a : PyObj) : Bool :=
  match a with
  | .pyTuple [h, _, _] => py_header_ne h == none
  | _ => false

/-- Counterexample to C4 as stated: an artifact that is *not* a 3-tuple of
(header, str→str dict, package tuple) — its dict maps an int to an int and
its tuple holds a string — is accepted by `load_meta_cache` and its
contents returned, instead of failing validation. -/
theorem cache_validation_counterexample :
    spec_cache_shape (.pyTuple [.pyTuple [.pyStr "PACKAGE_CACHE", .pyStr "2025.5"],
        .pyDict [(.pyInt 1, .pyInt 2)], .pyTuple [.pyStr "x"]]) = false ∧
    load_meta_cache (.pyTuple [.pyTuple [.pyStr "PACKAGE_CACHE", .pyStr "2025.5"],
        .pyDict [(.pyInt 1, .pyInt 2)], .pyTuple [.pyStr "x"]]) =
      .ok [(.pyInt 1, .pyInt 2)] [.pyStr "x"] :=
  ⟨rfl, rfl⟩

/-- C4 (amended).  For every artifact on which the header comparison does
not raise: the read fails validation — returning no data and directing the
user to re-ingest — iff the artifact is not a 3-tuple of (the expected
header, a dict, a tuple); in particular any mismatched magic or version is
rejected, but the element types inside the dict and the packages tuple are
not validated.  Whenever data is returned, the artifact had the accepted
shape. -/
theorem cache_validation (a : PyObj) (h : load_crashes a = false) :
    (load_meta_cache a = .invalid ↔ code_cache_shape a = false) ∧
    (∀ d t, load_meta_cache a = .ok d t → code_cache_shape a = true) := by
  rcases a with s | n | xs | es | p | r
  case pyTuple =>
    rcases xs with _ | ⟨x, _ | ⟨y, _ | ⟨z, _ | ⟨w, rest⟩⟩⟩⟩
    · exact ⟨by simp [load_meta_cache, code_cache_shape], by simp [load_meta_cache]⟩
    · exact ⟨by simp [load_meta_cache, code_cache_shape], by simp [load_meta_cache]⟩
    · exact ⟨by simp [load_meta_cache, code_cache_shape], by simp [load_meta_cache]⟩
    · rcases hh : py_header_ne x with _ | _ | _
      · simp [load_crashes, hh] at h
      · refine ⟨?_, ?_⟩ <;>
        · rcases y with s' | n' | xs' | es' | p' | r' <;>
            rcases z with s'' | n'' | xs'' | es'' | p'' | r'' <;>
              simp [load_meta_cache, code_cache_shape, hh]
      · refine ⟨?_, ?_⟩ <;>
        · rcases y with s' | n' | xs' | es' | p' | r' <;>
            rcases z with s'' | n'' | xs'' | es'' | p'' | r'' <;>
              simp [load_meta_cache, code_cache_shape, hh]
    · exact ⟨by simp [load_meta_cache, code_cache_shape], by simp [load_meta_cache]⟩
  all_goals
    exact ⟨by simp [load_meta_cache, code_cache_shape], by simp [load_meta_cache]⟩

/-- Witness for C4: a bare-string artifact does not raise and is rejected
as invalid by the amended characterization. -/
theorem cache_validation_witness :
    load_crashes (.pyStr "garbage") = false ∧
    ((load_meta_cache (.pyStr "garbage") = .invalid ↔
        code_cache_shape (.pyStr "garbage") = false) ∧
      (∀ d t, load_meta_cache (.pyStr "garbage") = .ok d t →
        code_cache_shape (.pyStr "garbage") = true)) :=
  ⟨rfl, cache_validation _ rfl⟩

/-! ## Two-pass ingestion join (`main`, "add files" pass)

`main` builds `packages` as a dict keyed by the packages themselves
(`packages[package] = package`, so the value for a key is the last package
inserted with it) and then runs
`packages[package_files].files = package_files.files` for every file-index
entry.  The mutation aliases the objects in `packages_cache`, so the pass
is modelled directly on that list. -/

/-- One iteration of the add-files loop: attach `e.files` to the last
element of `cache` whose dict key matches `e`; `none` models the `KeyError`
raised when no key matches. -/
def attach_files_entry : List Package → Package → Option (List Package)
  | [], _ => none
  | p :: rest, e =>
    match attach_files_entry rest e with
    | some rest' => some (p :: rest')
    | none =>
      if pkgSetKeyEq e p then
        some ({ p with files := e.files } :: rest)
      else
        none

/-- The whole add-files pass over the file-index entries in order; a
`KeyError` aborts it. -/
def attach_files (cache : List Package) (entries : List Package) : Option (List Package) :=
  List.foldlM attach_files_entry cache entries

lemma attach_files_entry_none (cache : List Package) (e : Package) :
    (∀ p ∈ cache, pkgSetKeyEq e p = false) → attach_files_entry cache e = none := by
  induction cache with
  | nil => intro _; rfl
  | cons p rest ih =>
    intro h
    have hrest := ih (fun q hq => h q (List.mem_cons_of_mem _ hq))
    simp [attach_files_entry, hrest, h p (List.mem_cons_self _ _)]

/-- Counterexample to C9 as stated: a file-index entry matching no
package-index entry is not silently dropped with the cached packages
unchanged — the join raises `KeyError` (`none`) instead. -/
theorem attach_files_counterexample :
    (∀ p ∈ [(⟨"a", "noarch", "1", "1", none, none, none, none, none, none, 0, 0,
        some "oss"⟩ : Package)],
      pkgSetKeyEq ⟨"b", "noarch", "2", "1", some ["/f"], none, none, none, none, none, 0, 0,
        some "oss"⟩ p = false) ∧
    attach_files [⟨"a", "noarch", "1", "1", none, none, none, none, none, none, 0, 0,
        some "oss"⟩]
      [⟨"b", "noarch", "2", "1", some ["/f"], none, none, none, none, none, 0, 0,
        some "oss"⟩] ≠
      some [⟨"a", "noarch", "1", "1", none, none, none, none, none, none, 0, 0,
        some "oss"⟩] := by
  exact ⟨by decide, by decide⟩

/-- C9 (amended).  A file-index entry whose identity matches no
package-index entry raises `KeyError`: the join aborts and yields no
updated package collection, rather than continuing with the entry silently
dropped. -/
theorem attach_files_no_match (cache : List Package) (e : Package)
    (h : ∀ p ∈ cache, pkgSetKeyEq e p = false) :
    attach_files_entry cache e = none ∧ attach_files cache [e] = none := by
  have h1 := attach_files_entry_none cache e h
  refine ⟨h1, ?_⟩
  simp [attach_files, List.foldlM_cons, h1]

/-- Witness for C9: the unmatched entry `b` against the one-package cache
`[a]` aborts the join. -/
theorem attach_files_no_match_witness :
    (∀ p ∈ [(⟨"a", "noarch", "1", "1", none, none, none, none, none, none, 0, 0,
        some "oss"⟩ : Package)],
      pkgSetKeyEq ⟨"b", "noarch", "2", "1", some ["/f"], none, none, none, none, none, 0, 0,
        some "oss"⟩ p = false) ∧
    (attach_files_entry [(⟨"a", "noarch", "1", "1", none, none, none, none, none, none, 0, 0,
        some "oss"⟩ : Package)]
        ⟨"b", "noarch", "2", "1", some ["/f"], none, none, none, none, none, 0, 0,
          some "oss"⟩ = none ∧
      attach_files [(⟨"a", "noarch", "1", "1", none, none, none, none, none, none, 0, 0,
        some "oss"⟩ : Package)]
        [⟨"b", "noarch", "2", "1", some ["/f"], none, none, none, none, none, 0, 0,
          some "oss"⟩] = none) :=
  ⟨by decide, attach_files_no_match _ _ (by decide)⟩

/-! ## Relation graph walker (`provides_packages` in `main`)

`provides_packages(package)` returns early when `package` is already in the
`provided_packages` set, otherwise adds it, returns if it has no requires,
and else recurses into every candidate of `packages` related to it
(`_iter_required_packages`).  The recursion is modelled with the mutable
`provided_packages` set threaded through explicitly (as the list of its
elements); the body of the callee is inlined at the loop's recursion site,
and the result carries the two structural invariants — the visited set only
grows, and a package is only ever added under a fresh-key guard — which
also furnish the termination measure. -/

/-- `not package.requires`: `None` or an empty tuple. -/
def requiresEmptyPy (p : Package) : Bool :=
  (p.requires.getD []).isEmpty

/-- `_iter_required_packages(package)`: the candidates of `packages` with
`any(package.iter_relations(package_, rtree))`. -/
def childPackages (candidates : List Package) (rtree : Bool) (package : Package) :
    List Package :=
  candidates.filter (fun c => !(package.iter_relations c rtree).isEmpty)

/-- Number of candidates not yet in the visited set: the termination
measure of the traversal. -/
def unvisitedCount (candidates visited : List Package) : Nat :=
  (candidates.filter (fun c => !setMember c visited)).length

/-- The visited set never holds two packages with the same container key:
"each package is visited at most once". -/
def PkgNodupKey (l : List Package) : Prop :=
  List.Pairwise (fun a b => pkgSetKeyEq a b = false) l

lemma pkgSetKeyEq_self (p : Package) : pkgSetKeyEq p p = true := by
  simp [pkgSetKeyEq, py_eq]

lemma setMember_cons_self (c : Package) (v : List Package) : setMember c (c :: v) = true := by
  simp [setMember, pkgSetKeyEq_self]

lemma setMember_of_mem {x : Package} {l : List Package} (h : x ∈ l) : setMember x l = true := by
  simp only [setMember, List.any_eq_true]
  exact ⟨x, h, pkgSetKeyEq_self x⟩

lemma setMember_cons_false {x c : Package} {v : List Package}
    (h : setMember x (c :: v) = false) : setMember x v = false := by
  simp only [setMember, List.any_eq_false] at h ⊢
  exact fun y hy => h y (List.mem_cons_of_mem _ hy)

lemma setMember_false_of_subset {v w : List Package} (hsub : ∀ x ∈ v, x ∈ w) {x : Package}
    (h : setMember x w = false) : setMember x v = false := by
  simp only [setMember, List.any_eq_false] at h ⊢
  exact fun y hy => h y (hsub y hy)

lemma pkgNodupKey_cons {c : Package} {v : List Package} (hm : setMember c v = false)
    (hnd : PkgNodupKey v) : PkgNodupKey (c :: v) := by
  refine List.pairwise_cons.mpr ⟨?_, hnd⟩
  intro b hb
  simp only [setMember, List.any_eq_false] at hm
  simpa using hm b hb

lemma filter_length_strict {α : Type} (p q : α → Bool) (h : ∀ x, p x = true → q x = true)
    (a : α) (l : List α) (ha : a ∈ l) (hqa : q a = true) (hpa : p a = false) :
    (l.filter p).length < (l.filter q).length := by
  induction l with
  | nil => cases ha
  | cons b t ih =>
    rcases List.mem_cons.mp ha with rfl | hat
    · have hle := (List.monotone_filter_right t (fun x hx => h x hx)).length_le
      simp [List.filter_cons, hpa, hqa]
      omega
    · by_cases hpb : p b = true
      · have := ih hat
        simp [List.filter_cons, hpb, h b hpb]
        omega
      · have := ih hat
        by_cases hqb : q b = true
        · simp [List.filter_cons, Bool.eq_false_iff.mpr hpb, hqb]
          omega
        · simp [List.filter_cons, Bool.eq_false_iff.mpr hpb, Bool.eq_false_iff.mpr hqb]
          omega

lemma unvisited_lt (candidates visited : List Package) (c : Package)
    (hc : c ∈ candidates) (hnm : setMember c visited = false) :
    unvisitedCount candidates (c :: visited) < unvisitedCount candidates visited := by
  refine filter_length_strict _ _ ?_ c candidates hc ?_ ?_
  · intro x hx
    simp only [Bool.not_eq_true'] at hx ⊢
    exact setMember_cons_false hx
  · simp [hnm]
  · simp [setMember_cons_self]

lemma unvisited_le_of_subset (candidates : List Package) {v w : List Package}
    (hsub : ∀ x ∈ v, x ∈ w) :
    unvisitedCount candidates w ≤ unvisitedCount candidates v := by
  apply (List.monotone_filter_right candidates ?_).length_le
  intro x hx
  simp only [Bool.not_eq_true'] at hx ⊢
  exact setMember_false_of_subset hsub hx

/-- The `for provides_package in _iter_required_packages(package)` loop of
`provides_packages`, with the recursive call's body inlined at the
`provides_packages(provides_package)` site (the already-visited guard is
the loop's own `in provided_packages` test; `tree_full` only prints).
The result carries the subset and at-most-once invariants used for
termination and for the C5 theorem. -/
def visit_loop (candidates : List Package) (rtree : Bool) :
    (visited : List Package) → (pkgs : List Package) →
    (hp : ∀ x ∈ pkgs, x ∈ candidates) →
    {r : List Package // (∀ x ∈ visited, x ∈ r) ∧ (PkgNodupKey visited → PkgNodupKey r)}
  | visited, [], _ => ⟨visited, fun _ hx => hx, id⟩
  | visited, c :: rest, hp =>
    if hm : setMember c visited = true then
      visit_loop candidates rtree visited rest (fun x hx => hp x (List.mem_cons_of_mem _ hx))
    else
      match (if requiresEmptyPy c then
               (⟨c :: visited, fun _ hx => hx, id⟩ :
                 {r : List Package // (∀ x ∈ c :: visited, x ∈ r) ∧
                   (PkgNodupKey (c :: visited) → PkgNodupKey r)})
             else
               visit_loop candidates rtree (c :: visited) (childPackages candidates rtree c)
                 (fun x hx => List.mem_of_mem_filter hx)) with
    | ⟨iv, hiv⟩ =>
      match visit_loop candidates rtree iv rest
          (fun x hx => hp x (List.mem_cons_of_mem _ hx)) with
      | ⟨rv, hrv⟩ =>
        ⟨rv, fun x hx => hrv.1 x (hiv.1 x (List.mem_cons_of_mem _ hx)),
          fun hnd => hrv.2 (hiv.2 (pkgNodupKey_cons (by simpa using hm) hnd))⟩
  termination_by visited pkgs _ => (unvisitedCount candidates visited, pkgs.length)
  decreasing_by
    · apply Prod.Lex.right
      simp
    · apply Prod.Lex.left
      exact unvisited_lt candidates visited c (hp c (List.mem_cons_self _ _)) (by simpa using hm)
    · apply Prod.Lex.left
      calc unvisitedCount candidates iv
          ≤ unvisitedCount candidates (c :: visited) := unvisited_le_of_subset candidates hiv.1
        _ < unvisitedCount candidates visited :=
            unvisited_lt candidates visited c (hp c (List.mem_cons_self _ _)) (by simpa using hm)

/-- `provides_packages(package)` over the candidate set `packages`
(`rtree` selects the traversal direction), returning the visited set it
leaves behind.  The root is added to the visited set before any recursion
happens, exactly as in the source. -/
def provides_packages (candidates : List Package) (rtree : Bool)
    (provided_packages : List Package) (package : Package) : List Package :=
  if setMember package provided_packages then provided_packages
  else if requiresEmptyPy package then package :: provided_packages
  else (visit_loop candidates rtree (package :: provided_packages)
      (childPackages candidates rtree package) (fun x hx => List.mem_of_mem_filter hx)).val

/-- C5.  The traversal is total (this very function is accepted by the
termination checker on the `unvisitedCount` measure, for every finite
candidate set, cyclic ones included), it never visits a package twice
(a visited set without duplicate keys stays without duplicate keys), it
never forgets a visited package, and the root is in the visited set when
it returns — the package is recorded before its children are explored. -/
theorem traversal_visits_once (candidates : List Package) (rtree : Bool)
    (visited : List Package) (root : Package) (h : PkgNodupKey visited) :
    PkgNodupKey (provides_packages candidates rtree visited root) ∧
    (∀ x ∈ visited, x ∈ provides_packages candidates rtree visited root) ∧
    setMember root (provides_packages candidates rtree visited root) = true := by
  unfold provides_packages
  by_cases h1 : setMember root visited = true
  · rw [if_pos h1]
    exact ⟨h, fun _ hx => hx, h1⟩
  · rw [if_neg h1]
    have h1' : setMember root visited = false := by simpa using h1
    by_cases h2 : requiresEmptyPy root = true
    · rw [if_pos h2]
      exact ⟨pkgNodupKey_cons h1' h, fun x hx => List.mem_cons_of_mem _ hx,
        setMember_cons_self root visited⟩
    · rw [if_neg h2]
      refine ⟨?_, ?_, ?_⟩
      · exact (visit_loop candidates rtree (root :: visited)
          (childPackages candidates rtree root)
          (fun x hx => List.mem_of_mem_filter hx)).property.2 (pkgNodupKey_cons h1' h)
      · exact fun x hx => (visit_loop candidates rtree (root :: visited)
          (childPackages candidates rtree root)
          (fun x hx => List.mem_of_mem_filter hx)).property.1 x (List.mem_cons_of_mem _ hx)
      · exact setMember_of_mem ((visit_loop candidates rtree (root :: visited)
          (childPackages candidates rtree root)
          (fun x hx => List.mem_of_mem_filter hx)).property.1 root (List.mem_cons_self _ _))

/-- The cyclic three-package set A→B→C→A of the claim: each package
requires the capability the next one provides. -/
def cycA : Package :=
  ⟨"A", "noarch", "1", "1", none, none, some [⟨"capA", none, none, none⟩],
    some [⟨"capB", none, none, none⟩], none, none, 0, 0, some "oss"⟩

def cycB : Package :=
  ⟨"B", "noarch", "1", "1", none, none, some [⟨"capB", none, none, none⟩],
    some [⟨"capC", none, none, none⟩], none, none, 0, 0, some "oss"⟩

def cycC : Package :=
  ⟨"C", "noarch", "1", "1", none, none, some [⟨"capC", none, none, none⟩],
    some [⟨"capA", none, none, none⟩], none, none, 0, 0, some "oss"⟩

/-- Witness for C5: forward traversal from A over the cyclic candidate set
{A, B, C} terminates (the application below is a total term), visits no
package twice, and retains A. -/
theorem traversal_visits_once_witness :
    PkgNodupKey [] ∧
    (PkgNodupKey (provides_packages [cycA, cycB, cycC] false [] cycA) ∧
      (∀ x ∈ ([] : List Package), x ∈ provides_packages [cycA, cycB, cycC] false [] cycA) ∧
      setMember cycA (provides_packages [cycA, cycB, cycC] false [] cycA) = true) :=
  ⟨List.Pairwise.nil, traversal_visits_once [cycA, cycB, cycC] false [] cycA List.Pairwise.nil⟩

end ObsRepos
